import Mathlib

/-!
Shallow embedding of `sale.py` from the `sale_stock_account_move` Tryton
module.

Modelling conventions:
* Python `float` quantities and `Decimal` amounts are modelled as `ℚ`
  (exact arithmetic; every operation the code performs on them is
  `+ - * abs` and comparisons).
* Host ORM services are passed as explicit parameters:
  `cq` models `Uom.compute_qty` (unit-of-measure conversion),
  `curConv` models `Currency.compute` (currency conversion),
  `MoveLine.search` results are obtained by filtering an explicit
  database snapshot (`db`, a `List DbMoveLine`).
* Records are structures; a Tryton record reference compares by id.
* Python dictionaries keyed by invoice id are association lists
  `List (ℕ × ℚ)` built with `dictAdd` (add-or-insert).
-/

set_option autoImplicit false

namespace SaleStockAccountMove

/-- A unit of measure; conversion is the host service `cq`. -/
structure Uom where
  id : ℕ
deriving DecidableEq, Repr

/-- A currency; conversion is the host service `curConv`. -/
structure Currency where
  id : ℕ
deriving DecidableEq, Repr

structure Party where
  id : ℕ
deriving DecidableEq, Repr

structure Company where
  id : ℕ
  currency : Currency
deriving DecidableEq, Repr

/-- An account (`account.account`): identified by `id`,
with its `party_required` flag. -/
structure Account where
  id : ℕ
  party_required : Bool
deriving DecidableEq, Repr

/-- `account.invoice`: only the fields `sale.py` reads. -/
structure Invoice where
  id : ℕ
  state : String
deriving DecidableEq, Repr

/-- `account.invoice.line`: only the fields `sale.py` reads. -/
structure InvoiceLine where
  invoice : Option Invoice
  unit : Uom
  quantity : ℚ
deriving DecidableEq, Repr

/-- `stock.move`: only the fields `sale.py` reads. -/
structure StockMove where
  invoice_lines : List InvoiceLine
  uom : Uom
  state : String
  quantity : ℚ
deriving DecidableEq, Repr

/-- `product.product`: only the fields `sale.py` reads
(`typ` embeds the Python attribute `type`). -/
structure Product where
  typ : String
  account_revenue_used : Account
deriving DecidableEq, Repr

/-- The sale record as seen from one of its lines (`self.sale`). -/
structure SaleInfo where
  id : ℕ
  company : Company
  currency : Currency
  party : Party
deriving DecidableEq, Repr

/-- `sale.line`: only the fields `sale.py` reads. -/
structure SaleLine where
  id : ℕ
  sale : SaleInfo
  quantity : ℚ
  unit : Uom
  unit_price : ℚ
  product : Option Product
  moves : List StockMove
deriving DecidableEq, Repr

/-- An `account.move.line` row already stored in the database, as returned
by `MoveLine.search`: it carries its move's id and the move's origin. -/
structure DbMoveLine where
  move_id : ℕ
  move_origin : Option ℕ
  account : ℕ
  sale_line : Option ℕ
  reconciliation : Option ℕ
  debit : ℚ
  credit : ℚ
deriving DecidableEq, Repr

/-- A freshly constructed `account.move.line` (`MoveLine()` plus attribute
assignments; attributes the code never assigns stay `none`).
`analytic_lines` (set by `_set_analytic_lines`) is not modelled: it never
touches `account`, `debit`, `credit`, `sale_line` or `reconciliation`. -/
structure AccountMoveLine where
  account : Account
  party : Option Party
  sale_line : Option ℕ
  reconciliation : Option ℕ
  debit : ℚ
  credit : ℚ
deriving DecidableEq, Repr

/-- `d[k] += v`, inserting `k` with value `v` when absent: the idiom
`if k not in d: d[k] = 0.0` followed by `d[k] += v` in `sale.py`. -/
def dictAdd : List (ℕ × ℚ) → ℕ → ℚ → List (ℕ × ℚ)
  | [], k, v => [(k, v)]
  | (k', v') :: rest, k, v =>
      if k' = k then (k', v' + v) :: rest else (k', v') :: dictAdd rest k v

/-- Dictionary lookup defaulting to `0` for an absent key. -/
def dictGet : List (ℕ × ℚ) → ℕ → ℚ
  | [], _ => 0
  | (k', v) :: rest, k => if k' = k then v else dictGet rest k

/-- `sum(d.values())`. -/
def dictValuesSum (d : List (ℕ × ℚ)) : ℚ :=
  (d.map Prod.snd).sum

/-- Loop body of `StockMove.posted_quantity` (sale.py lines 26-33),
accumulating one invoice line into the per-invoice dictionary. -/
def pqStep (cq : Uom → ℚ → Uom → ℚ) (uom : Uom)
    (invoice_quantity : List (ℕ × ℚ)) (invoice_line : InvoiceLine) :
    List (ℕ × ℚ) :=
  match invoice_line.invoice with
  | none => invoice_quantity
  | some inv =>
      if inv.state = "posted" ∨ inv.state = "paid" then
        dictAdd invoice_quantity inv.id
          (cq invoice_line.unit invoice_line.quantity uom)
      else invoice_quantity

/-- `StockMove.posted_quantity` (sale.py lines 19-34): the quantity from
linked invoice lines, converted into the move's uom, keyed by invoice id;
only invoice lines whose invoice exists and is `posted` or `paid` count. -/
def StockMove.posted_quantity (cq : Uom → ℚ → Uom → ℚ) (m : StockMove) :
    List (ℕ × ℚ) :=
  m.invoice_lines.foldl (pqStep cq m.uom) []

/-- `SaleLine._get_unposted_shiped_quantity` (sale.py lines 284-309).
Returns `none` when the line has no moves (the Python loop variable `move`
would be unbound on the final line); the only caller guards on
`self.moves` being non-empty. Note the Python `for` loop leaks its
variable, so the uom used for the final conversion is the one of the LAST
move of `self.moves`, whatever its state.
`uspqStep` is the loop body (sale.py lines 295-303): skip moves not
`done`, add the move quantity to the shipped total and merge the move's
per-invoice posted quantities into the running dictionary. -/
def uspqStep (cq : Uom → ℚ → Uom → ℚ) (acc : ℚ × List (ℕ × ℚ))
    (move : StockMove) : ℚ × List (ℕ × ℚ) :=
  if move.state ≠ "done" then acc
  else
    (acc.1 + move.quantity,
     (StockMove.posted_quantity cq move).foldl
       (fun invoice_quantity p => dictAdd invoice_quantity p.1 p.2)
       acc.2)

/-- `SaleLine._get_unposted_shiped_quantity`, continued: the fold of
`uspqStep` over the line's moves, the cap of the posted quantity at the
line quantity, and the final signed uom conversion. -/
def SaleLine.get_unposted_shiped_quantity (cq : Uom → ℚ → Uom → ℚ)
    (l : SaleLine) : Option ℚ :=
  match l.moves.getLast? with
  | none => none
  | some lastMove =>
      let sign : ℚ := if l.quantity < 0 then -1 else 1
      let acc : ℚ × List (ℕ × ℚ) := l.moves.foldl (uspqStep cq) (0, [])
      let sended_quantity := acc.1
      let posted_quantity := dictValuesSum acc.2
      -- "in case split moves, posted quantity is greater than purchase
      -- quantity" cap
      let posted_quantity :=
        if posted_quantity > l.quantity then l.quantity else posted_quantity
      some (sign * cq lastMove.uom (sended_quantity - posted_quantity) l.unit)

/-- The "to reconcile" move line built at sale.py lines 219-230: a
positive amount goes to `credit`, otherwise its absolute value goes to
`debit`; `party` is set only when the account requires it; `sale_line`
is never assigned. -/
def mkToReconcileLine (pia : Account) (party : Party) (amount : ℚ) :
    AccountMoveLine :=
  { account := pia
    party := if pia.party_required then some party else none
    sale_line := none
    reconciliation := none
    debit := if amount > 0 then 0 else |amount|
    credit := if amount > 0 then amount else 0 }

/-- The signed booking shared by the invoiced-revenue line (sale.py lines
254-264) and the pending-invoice line (lines 269-279): a positive amount
goes to `debit`, a negative one books its absolute value as `credit`;
both lines set `sale_line` to the sale line. -/
def mkSignedLine (acct : Account) (party : Party) (sl : ℕ) (amount : ℚ) :
    AccountMoveLine :=
  { account := acct
    party := if acct.party_required then some party else none
    sale_line := some sl
    reconciliation := none
    debit := if amount > 0 then amount else 0
    credit := if amount > 0 then 0 else |amount| }

/-- The `MoveLine.search` of sale.py lines 202-206: previously created
stock account move lines of this sale line on the pending invoice
account, not yet reconciled. -/
def linesToReconcileOf (db : List DbMoveLine) (l : SaleLine)
    (pia : Account) : List DbMoveLine :=
  db.filter (fun dl =>
    dl.sale_line = some l.id ∧ dl.account = pia.id ∧ dl.reconciliation = none)

/-- `amount_to_reconcile` of sale.py lines 216-217. -/
def amountToReconcileOf (lines_to_reconcile : List DbMoveLine) : ℚ :=
  if lines_to_reconcile ≠ [] then
    (lines_to_reconcile.map (fun dl => dl.debit - dl.credit)).sum
  else 0

/-- `pending_amount` of sale.py lines 232-234: the unposted shipped
quantity times the unit price, converted from the company currency to the
sale currency (zero when nothing unposted is shipped). -/
def pendingAmountOf (cq : Uom → ℚ → Uom → ℚ)
    (curConv : Currency → ℚ → Currency → ℚ) (l : SaleLine) : ℚ :=
  let unposted_shiped_quantity := (l.get_unposted_shiped_quantity cq).getD 0
  if unposted_shiped_quantity ≠ 0 then
    curConv l.sale.company.currency
      (unposted_shiped_quantity * l.unit_price) l.sale.currency
  else 0

/-- `SaleLine._get_stock_account_move_lines` (sale.py lines 184-282). -/
def SaleLine.get_stock_account_move_lines (cq : Uom → ℚ → Uom → ℚ)
    (curConv : Currency → ℚ → Currency → ℚ) (db : List DbMoveLine)
    (l : SaleLine) (pia : Account) : List AccountMoveLine :=
  match l.product with
  | none => []
  | some product =>
    if product.typ = "service" ∨ l.moves = [] then []
    else
      let unposted_shiped_quantity :=
        (l.get_unposted_shiped_quantity cq).getD 0
      let lines_to_reconcile := linesToReconcileOf db l pia
      if unposted_shiped_quantity = 0 ∧ lines_to_reconcile = [] then []
      else
        let amount_to_reconcile := amountToReconcileOf lines_to_reconcile
        let ml0 : List AccountMoveLine :=
          if amount_to_reconcile ≠ 0 then
            [mkToReconcileLine pia l.sale.party amount_to_reconcile]
          else []
        let pending_amount := pendingAmountOf cq curConv l
        let invoiced_amount :=
          if amount_to_reconcile = 0 ∧ unposted_shiped_quantity ≠ 0 then
            -- first time
            -pending_amount
          else if unposted_shiped_quantity = 0 then
            -- invoiced all shiped
            if amount_to_reconcile > 0 then amount_to_reconcile
            else -amount_to_reconcile
          else
            -- invoiced partially shiped quantity
            -(amount_to_reconcile + pending_amount)
        if pending_amount = amount_to_reconcile then []
        else
          ml0
            ++ (if invoiced_amount ≠ 0 then
                  [mkSignedLine product.account_revenue_used l.sale.party
                    l.id invoiced_amount]
                else [])
            ++ (if pending_amount ≠ 0 then
                  [mkSignedLine pia l.sale.party l.id pending_amount]
                else [])

/-- `account.journal`: only the fields `sale.py` reads
(`typ` embeds the Python attribute `type`). -/
structure Journal where
  id : ℕ
  typ : String
deriving DecidableEq, Repr

/-- The `account.move` built by `Sale._get_stock_account_move`;
`origin` holds the sale id, `date` and `period` are abstract day and
period identifiers supplied by the host. -/
structure AccountMove where
  origin : ℕ
  period : ℕ
  journal : Option Journal
  date : ℕ
  lines : List AccountMoveLine
deriving DecidableEq, Repr

/-- `sale.sale`: only the fields `sale.py` reads. -/
structure Sale where
  id : ℕ
  invoice_method : String
  company : Company
  currency : Currency
  party : Party
  lines : List SaleLine
deriving DecidableEq, Repr

/-- `Sale._get_accounting_journal` (sale.py lines 141-151): the first
journal of type `revenue` in the journal table, or `none`. -/
def Sale.get_accounting_journal (journals : List Journal) : Option Journal :=
  (journals.filter (fun j => j.typ = "revenue")).head?

/-- `Sale._get_stock_account_move` (sale.py lines 114-139). `today` is
`Date.today()`, `periodFind company_id date` is `Period.find`. -/
def Sale.get_stock_account_move (cq : Uom → ℚ → Uom → ℚ)
    (curConv : Currency → ℚ → Currency → ℚ) (db : List DbMoveLine)
    (today : ℕ) (periodFind : ℕ → ℕ → ℕ) (journals : List Journal)
    (s : Sale) (pia : Account) : Option AccountMove :=
  if s.invoice_method = "manual" ∨ s.invoice_method = "order" then none
  else
    let move_lines := s.lines.foldl
      (fun acc l => acc ++ l.get_stock_account_move_lines cq curConv db pia)
      []
    if move_lines = [] then none
    else
      some
        { origin := s.id
          period := periodFind s.company.id today
          journal := Sale.get_accounting_journal journals
          date := today
          lines := move_lines }

/-- The `MoveLine.search` of sale.py lines 98-108: unreconciled lines on
the pending invoice account whose move originates from this sale, either
in a move other than the freshly created one or without `sale_line`. -/
def selectReconcileLines (db2 : List DbMoveLine) (sale_id : ℕ)
    (pia : Account) (new_move_id : ℕ) : List DbMoveLine :=
  db2.filter (fun dl =>
    dl.move_origin = some sale_id ∧ dl.account = pia.id ∧
      dl.reconciliation = none ∧
      (dl.move_id ≠ new_move_id ∨ dl.sale_line = none))

/-- Observable outcome of `Sale.create_stock_account_move`:
`raised` is the user error, `posted_move` the move that was saved and
posted, `to_reconcile` the lines selected by the search, and
`reconcile_called` whether `MoveLine.reconcile` ran; `db_after` is the
database of stored move lines after the call (`db2` with the selected
lines marked reconciled when reconciliation happened). -/
structure CreateResult where
  raised : Option String
  posted_move : Option AccountMove
  to_reconcile : List DbMoveLine
  reconcile_called : Bool
  db_after : List DbMoveLine
deriving DecidableEq, Repr

/-- `Sale.create_stock_account_move` (sale.py lines 74-112). `pa` is
`config.pending_invoice_account` (`none` when unset); `db2` is the
database of stored move lines at the time of the reconciliation search
(that is, after the new move and its lines were saved and posted);
`new_move_id` is the id the new move received when saved. -/
def Sale.create_stock_account_move (cq : Uom → ℚ → Uom → ℚ)
    (curConv : Currency → ℚ → Currency → ℚ) (db : List DbMoveLine)
    (pa : Option Account) (today : ℕ) (periodFind : ℕ → ℕ → ℕ)
    (journals : List Journal) (db2 : List DbMoveLine) (new_move_id : ℕ)
    (s : Sale) : CreateResult :=
  if s.invoice_method ≠ "shipment" then
    { raised := none, posted_move := none, to_reconcile := []
      reconcile_called := false, db_after := db2 }
  else
    match pa with
    | none =>
        { raised := some "no_pending_invoice_account", posted_move := none
          to_reconcile := [], reconcile_called := false, db_after := db2 }
    | some pia =>
        match s.get_stock_account_move cq curConv db today periodFind
            journals pia with
        | none =>
            { raised := none, posted_move := none, to_reconcile := []
              reconcile_called := false, db_after := db2 }
        | some account_move =>
            let to_reconcile : List DbMoveLine :=
              selectReconcileLines db2 s.id pia new_move_id
            let credit : ℚ := (to_reconcile.map (fun dl => dl.credit)).sum
            let debit : ℚ := (to_reconcile.map (fun dl => dl.debit)).sum
            let doReconcile : Bool :=
              decide (to_reconcile ≠ [] ∧ credit = debit)
            { raised := none
              posted_move := some account_move
              to_reconcile := to_reconcile
              reconcile_called := doReconcile
              db_after :=
                if doReconcile then
                  db2.map (fun dl =>
                    if dl ∈ to_reconcile then
                      { dl with reconciliation := some new_move_id }
                    else dl)
                else db2 }

/-- One observable call made by `Sale.process`. -/
inductive ProcessEvent where
  | superCall (sales : List Sale)
  | createCall (sale : Sale)
deriving DecidableEq, Repr

/-- `Sale.process` (sale.py lines 68-72) over an abstract state `σ`:
first the host module's `process` on the whole list, then
`create_stock_account_move` on each sale of the list. -/
def Sale.process {σ : Type} (superProcess : List Sale → σ → σ)
    (createMove : Sale → σ → σ) (sales : List Sale) (st : σ) : σ :=
  sales.foldl (fun st sale => createMove sale st) (superProcess sales st)

/-! Quantities as the specification describes them, used to state the
claims about `get_unposted_shiped_quantity` and `posted_quantity`. -/

/-- The shipped ("sended") quantity: the total quantity of the line's
moves in state `done`. -/
def sendedOf (ms : List StockMove) : ℚ :=
  ((ms.filter fun m => m.state = "done").map (fun m => m.quantity)).sum

/-- The total invoiced-and-posted quantity over the moves in state
`done`: for each such move the sum of its per-invoice posted
quantities. -/
def postedOf (cq : Uom → ℚ → Uom → ℚ) (ms : List StockMove) : ℚ :=
  ((ms.filter fun m => m.state = "done").map
    (fun m => dictValuesSum (m.posted_quantity cq))).sum

/-- The total converted quantity of the invoice lines whose invoice
exists, is `posted` or `paid`, and has id `k`; any other invoice line
contributes nothing. -/
def postedContrib (cq : Uom → ℚ → Uom → ℚ) (uom : Uom) :
    List InvoiceLine → ℕ → ℚ
  | [], _ => 0
  | il :: rest, k =>
      (match il.invoice with
       | some inv =>
           if (inv.state = "posted" ∨ inv.state = "paid") ∧ inv.id = k then
             cq il.unit il.quantity uom
           else 0
       | none => 0) + postedContrib cq uom rest k

/-- The concatenation of `get_stock_account_move_lines` over a sale's
lines, in order. -/
def allMoveLines (cq : Uom → ℚ → Uom → ℚ)
    (curConv : Currency → ℚ → Currency → ℚ) (db : List DbMoveLine)
    (s : Sale) (pia : Account) : List AccountMoveLine :=
  (s.lines.map (fun l => l.get_stock_account_move_lines cq curConv db pia)).flatten

/-! Concrete sample data used to evaluate the definitions on explicit
inputs (identity uom and currency conversions). -/

/-- Identity unit-of-measure conversion. -/
def cqId : Uom → ℚ → Uom → ℚ := fun _ q _ => q

/-- Identity currency conversion. -/
def convId : Currency → ℚ → Currency → ℚ := fun _ a _ => a

def exUom : Uom := ⟨1⟩
def exCur : Currency := ⟨1⟩
def exParty : Party := ⟨1⟩
def exCompany : Company := ⟨1, exCur⟩
def exPia : Account := ⟨7, false⟩
def exRevenue : Account := ⟨2, false⟩
def exSaleInfo : SaleInfo := ⟨1, exCompany, exCur, exParty⟩
def exProduct : Product := ⟨"goods", exRevenue⟩
def exJournal : Journal := ⟨9, "revenue"⟩

/-- Constant period finder. -/
def pfConst : ℕ → ℕ → ℕ := fun _ _ => 3

/-- A posted invoice covering 4 units of the 10 shipped: the
partially-invoiced scenario. -/
def exInvoice : Invoice := ⟨1, "posted"⟩
def exInvLine : InvoiceLine := ⟨some exInvoice, exUom, 4⟩
def exMove : StockMove := ⟨[exInvLine], exUom, "done", 10⟩
def exLine : SaleLine := ⟨5, exSaleInfo, 10, exUom, 1, some exProduct, [exMove]⟩

/-- The stored pending-invoice line created by a previous run for
`exLine` (debit 10 on the pending account, not yet reconciled). -/
def exDb : List DbMoveLine := [⟨100, some 1, 7, some 5, none, 10, 0⟩]

/-- First-shipment scenario: 10 units shipped, nothing invoiced, no
previously stored pending line. -/
def exMove0 : StockMove := ⟨[], exUom, "done", 10⟩
def exLine0 : SaleLine := ⟨5, exSaleInfo, 10, exUom, 1, some exProduct, [exMove0]⟩

/-- A sale with invoice method `shipment` holding the first-shipment
line. -/
def exSale : Sale := ⟨1, "shipment", exCompany, exCur, exParty, [exLine0]⟩

/-- The same sale with invoice method `manual`. -/
def exSaleManual : Sale := ⟨1, "manual", exCompany, exCur, exParty, [exLine0]⟩

/-- A stored, unreconciled line on the pending account originating from
`exSale` in an older move, with credit 5 and debit 0. -/
def exDb2 : List DbMoveLine := [⟨100, some 1, 7, some 5, none, 0, 5⟩]

/-! Association-list lemmas. -/

theorem dictGet_dictAdd (d : List (ℕ × ℚ)) (k k' : ℕ) (v : ℚ) :
    dictGet (dictAdd d k v) k' = dictGet d k' + if k = k' then v else 0 := by
  induction d with
  | nil =>
      simp only [dictAdd, dictGet]
      split <;> simp_all [dictGet]
  | cons p rest ih =>
      rcases p with ⟨k1, v1⟩
      simp only [dictAdd]
      split_ifs with h1 <;> simp only [dictGet] <;>
        split_ifs with h2 <;> simp_all [dictGet]

theorem dictValuesSum_nil : dictValuesSum [] = 0 := rfl

theorem dictValuesSum_dictAdd (d : List (ℕ × ℚ)) (k : ℕ) (v : ℚ) :
    dictValuesSum (dictAdd d k v) = dictValuesSum d + v := by
  induction d with
  | nil => simp [dictAdd, dictValuesSum]
  | cons p rest ih =>
      rcases p with ⟨k1, v1⟩
      simp only [dictAdd]
      split_ifs with h1 <;> simp_all [dictValuesSum] <;> ring

theorem dictValuesSum_foldl_dictAdd (pairs : List (ℕ × ℚ))
    (d : List (ℕ × ℚ)) :
    dictValuesSum (pairs.foldl (fun dd p => dictAdd dd p.1 p.2) d) =
      dictValuesSum d + (pairs.map Prod.snd).sum := by
  induction pairs generalizing d with
  | nil => simp
  | cons p rest ih =>
      simp only [List.foldl_cons, List.map_cons, List.sum_cons, ih,
        dictValuesSum_dictAdd]
      ring

/-! Behaviour of `StockMove.posted_quantity`. -/

theorem dictGet_foldl_pqStep (cq : Uom → ℚ → Uom → ℚ) (u : Uom)
    (ils : List InvoiceLine) (d : List (ℕ × ℚ)) (k : ℕ) :
    dictGet (ils.foldl (pqStep cq u) d) k =
      dictGet d k + postedContrib cq u ils k := by
  induction ils generalizing d with
  | nil => simp [postedContrib]
  | cons il rest ih =>
      simp only [List.foldl_cons, ih, postedContrib]
      rcases hinv : il.invoice with _ | inv
      · simp [pqStep, hinv]
      · simp only [pqStep, hinv]
        split_ifs with hstate hboth hboth <;>
          simp_all [dictGet_dictAdd]
        ring

/-- C9: `StockMove.posted_quantity` maps each invoice id `k` to the sum,
over the move's invoice lines whose invoice exists and is in state
`posted` or `paid` and has id `k`, of the line quantity converted from
the invoice line's unit to the move's uom; invoice lines of invoices in
any other state (or with no invoice) contribute nothing. -/
theorem posted_quantity_per_invoice (cq : Uom → ℚ → Uom → ℚ)
    (m : StockMove) (k : ℕ) :
    dictGet (m.posted_quantity cq) k = postedContrib cq m.uom m.invoice_lines k := by
  simpa [StockMove.posted_quantity, dictGet] using
    dictGet_foldl_pqStep cq m.uom m.invoice_lines [] k

/-! Behaviour of `SaleLine.get_unposted_shiped_quantity`. -/

theorem uspq_foldl_fst (cq : Uom → ℚ → Uom → ℚ) (ms : List StockMove)
    (acc : ℚ × List (ℕ × ℚ)) :
    (ms.foldl (uspqStep cq) acc).1 = acc.1 + sendedOf ms := by
  induction ms generalizing acc with
  | nil => simp [sendedOf]
  | cons m rest ih =>
      simp only [List.foldl_cons, ih, sendedOf, List.filter_cons]
      by_cases h : m.state = "done" <;>
        simp_all [uspqStep, sendedOf]
      ring

theorem uspq_foldl_snd (cq : Uom → ℚ → Uom → ℚ) (ms : List StockMove)
    (acc : ℚ × List (ℕ × ℚ)) :
    dictValuesSum (ms.foldl (uspqStep cq) acc).2 =
      dictValuesSum acc.2 + postedOf cq ms := by
  induction ms generalizing acc with
  | nil => simp [postedOf]
  | cons m rest ih =>
      by_cases h : m.state = "done"
      · have hstep : uspqStep cq acc m =
            (acc.1 + m.quantity,
             (StockMove.posted_quantity cq m).foldl
               (fun invoice_quantity p => dictAdd invoice_quantity p.1 p.2)
               acc.2) := by
          simp [uspqStep, h]
        rw [List.foldl_cons, hstep, ih, dictValuesSum_foldl_dictAdd]
        simp only [postedOf, List.filter_cons, h, decide_True, if_true,
          List.map_cons, List.sum_cons, dictValuesSum]
        ring
      · have hstep : uspqStep cq acc m = acc := by simp [uspqStep, h]
        rw [List.foldl_cons, hstep, ih]
        simp [postedOf, List.filter_cons, h]

/-- C3: for every sale line with at least one stock move,
`get_unposted_shiped_quantity` returns
`sign * cq move_uom (sended - posted) line_unit`, where `sended` is the
total quantity of the line's moves in state `done`, `posted` is the
per-invoice invoiced-and-posted quantity summed over those moves, capped
at the sale line's quantity when it exceeds it, `sign` is `-1` exactly
when the line quantity is negative and `1` otherwise, and `move_uom` is
the uom of the line's last stock move (the leaked Python loop
variable). -/
theorem unposted_shiped_quantity_formula (cq : Uom → ℚ → Uom → ℚ)
    (l : SaleLine) (h : l.moves ≠ []) :
    l.get_unposted_shiped_quantity cq =
      some ((if l.quantity < 0 then (-1 : ℚ) else 1) *
        cq (l.moves.getLast h).uom
          (sendedOf l.moves -
            (if postedOf cq l.moves > l.quantity then l.quantity
             else postedOf cq l.moves)) l.unit) := by
  unfold SaleLine.get_unposted_shiped_quantity
  rw [List.getLast?_eq_getLast_of_ne_nil h]
  simp only [uspq_foldl_fst, uspq_foldl_snd, dictValuesSum_nil, zero_add]

/-- Closed instance of `unposted_shiped_quantity_formula` at the
partially-invoiced sample line. -/
theorem unposted_shiped_quantity_formula_witness :
    exLine.get_unposted_shiped_quantity cqId =
      some ((if exLine.quantity < 0 then (-1 : ℚ) else 1) *
        cqId (exLine.moves.getLast (by decide)).uom
          (sendedOf exLine.moves -
            (if postedOf cqId exLine.moves > exLine.quantity then
              exLine.quantity
             else postedOf cqId exLine.moves)) exLine.unit) :=
  unposted_shiped_quantity_formula cqId exLine (by decide)

/-! Dissection of the lines built by `get_stock_account_move_lines`. -/

theorem mkToReconcileLine_sides (pia : Account) (party : Party) (a : ℚ) :
    0 ≤ (mkToReconcileLine pia party a).debit ∧
      0 ≤ (mkToReconcileLine pia party a).credit ∧
      ((mkToReconcileLine pia party a).debit = 0 ∨
        (mkToReconcileLine pia party a).credit = 0) := by
  unfold mkToReconcileLine
  by_cases h : a > 0 <;> simp [h, abs_nonneg, le_of_lt]

theorem mkSignedLine_sides (acct : Account) (party : Party) (sl : ℕ)
    (a : ℚ) :
    0 ≤ (mkSignedLine acct party sl a).debit ∧
      0 ≤ (mkSignedLine acct party sl a).credit ∧
      ((mkSignedLine acct party sl a).debit = 0 ∨
        (mkSignedLine acct party sl a).credit = 0) := by
  unfold mkSignedLine
  by_cases h : a > 0 <;> simp [h, abs_nonneg, le_of_lt]

/-- Membership in the three guarded singleton chunks appended by
`get_stock_account_move_lines`. -/
theorem mem_three_chunks {A I P : ℚ} {r i p ml : AccountMoveLine}
    (hml : ml ∈ (if A ≠ 0 then [r] else []) ++ (if I ≠ 0 then [i] else [])
      ++ (if P ≠ 0 then [p] else [])) :
    (A ≠ 0 ∧ ml = r) ∨ (I ≠ 0 ∧ ml = i) ∨ (P ≠ 0 ∧ ml = p) := by
  by_cases hA : A ≠ 0 <;> by_cases hI : I ≠ 0 <;> by_cases hP : P ≠ 0 <;>
    simp [hA, hI, hP] at hml <;> tauto

/-- Every element of `get_stock_account_move_lines` is the reconciling
line for a non-zero `amount_to_reconcile`, an invoiced-revenue line for
some non-zero amount, or the pending-invoice line for a non-zero
`pending_amount`. -/
theorem mem_move_lines_cases (cq : Uom → ℚ → Uom → ℚ)
    (curConv : Currency → ℚ → Currency → ℚ) (db : List DbMoveLine)
    (l : SaleLine) (pia : Account) (prod : Product)
    (hp : l.product = some prod) (ml : AccountMoveLine)
    (hml : ml ∈ l.get_stock_account_move_lines cq curConv db pia) :
    (amountToReconcileOf (linesToReconcileOf db l pia) ≠ 0 ∧
      ml = mkToReconcileLine pia l.sale.party
        (amountToReconcileOf (linesToReconcileOf db l pia))) ∨
    (∃ a : ℚ, a ≠ 0 ∧
      ml = mkSignedLine prod.account_revenue_used l.sale.party l.id a) ∨
    (pendingAmountOf cq curConv l ≠ 0 ∧
      ml = mkSignedLine pia l.sale.party l.id
        (pendingAmountOf cq curConv l)) := by
  unfold SaleLine.get_stock_account_move_lines at hml
  rw [hp] at hml
  simp only at hml
  by_cases h1 : prod.typ = "service" ∨ l.moves = []
  · rw [if_pos h1] at hml
    exact absurd hml (List.not_mem_nil ml)
  rw [if_neg h1] at hml
  by_cases h2 : (SaleLine.get_unposted_shiped_quantity cq l).getD 0 = 0 ∧
      linesToReconcileOf db l pia = []
  · rw [if_pos h2] at hml
    exact absurd hml (List.not_mem_nil ml)
  rw [if_neg h2] at hml
  by_cases h3 : pendingAmountOf cq curConv l =
      amountToReconcileOf (linesToReconcileOf db l pia)
  · rw [if_pos h3] at hml
    exact absurd hml (List.not_mem_nil ml)
  rw [if_neg h3] at hml
  rcases mem_three_chunks hml with h | h | h
  · exact Or.inl h
  · exact Or.inr (Or.inl ⟨_, h.1, h.2⟩)
  · exact Or.inr (Or.inr h)

/-- A non-zero `pending_amount` forces a non-zero unposted shipped
quantity and is then exactly the converted amount of sale.py lines
232-234. -/
theorem pendingAmountOf_ne_zero (cq : Uom → ℚ → Uom → ℚ)
    (curConv : Currency → ℚ → Currency → ℚ) (l : SaleLine)
    (h : pendingAmountOf cq curConv l ≠ 0) :
    (l.get_unposted_shiped_quantity cq).getD 0 ≠ 0 ∧
      pendingAmountOf cq curConv l =
        curConv l.sale.company.currency
          ((l.get_unposted_shiped_quantity cq).getD 0 * l.unit_price)
          l.sale.currency := by
  simp only [pendingAmountOf] at h ⊢
  split_ifs at h ⊢ with husq
  · exact ⟨husq, rfl⟩
  · exact absurd rfl h

/-- C10: every account move line constructed by
`get_stock_account_move_lines` has a non-negative debit and a
non-negative credit, and at least one of the two is zero. -/
theorem move_lines_single_sided (cq : Uom → ℚ → Uom → ℚ)
    (curConv : Currency → ℚ → Currency → ℚ) (db : List DbMoveLine)
    (l : SaleLine) (pia : Account) (ml : AccountMoveLine)
    (hml : ml ∈ l.get_stock_account_move_lines cq curConv db pia) :
    0 ≤ ml.debit ∧ 0 ≤ ml.credit ∧ (ml.debit = 0 ∨ ml.credit = 0) := by
  rcases hp : l.product with _ | prod
  · unfold SaleLine.get_stock_account_move_lines at hml
    rw [hp] at hml
    simp at hml
  · rcases mem_move_lines_cases cq curConv db l pia prod hp ml hml with
      ⟨-, rfl⟩ | ⟨a, -, rfl⟩ | ⟨-, rfl⟩
    · exact mkToReconcileLine_sides _ _ _
    · exact mkSignedLine_sides _ _ _ _
    · exact mkSignedLine_sides _ _ _ _

/-- The invoiced-revenue line produced in the first-shipment scenario. -/
def exInvoicedLine0 : AccountMoveLine := ⟨exRevenue, none, some 5, none, 0, 10⟩

/-- The pending-invoice line produced in the first-shipment scenario. -/
def exPendingLine0 : AccountMoveLine := ⟨exPia, none, some 5, none, 10, 0⟩

/-- Evaluation of `get_unposted_shiped_quantity` on the first-shipment
sample: 10 units shipped, nothing invoiced. -/
theorem exLine0_uspq : exLine0.get_unposted_shiped_quantity cqId = some 10 := by
  simp [SaleLine.get_unposted_shiped_quantity, exLine0, exMove0, uspqStep,
    StockMove.posted_quantity, pqStep, dictValuesSum, dictAdd, cqId,
    List.getLast?, List.getLast, exUom]
  norm_num

/-- Evaluation of `get_stock_account_move_lines` on the first-shipment
sample: revenue credited 10, pending invoice account debited 10. -/
theorem exLine0_lines :
    exLine0.get_stock_account_move_lines cqId convId [] exPia =
      [exInvoicedLine0, exPendingLine0] := by
  simp [SaleLine.get_stock_account_move_lines, exLine0, exProduct, exMove0,
    SaleLine.get_unposted_shiped_quantity, uspqStep, StockMove.posted_quantity,
    pqStep, dictValuesSum, dictAdd, cqId, convId, linesToReconcileOf,
    amountToReconcileOf, pendingAmountOf, mkSignedLine, mkToReconcileLine,
    exInvoicedLine0, exPendingLine0, exRevenue, exPia, exSaleInfo, exParty,
    exCompany, exCur, exUom, List.getLast?, List.getLast]
  norm_num

/-- Closed instance of `move_lines_single_sided` at the invoiced-revenue
line of the first-shipment sample. -/
theorem move_lines_single_sided_witness :
    0 ≤ exInvoicedLine0.debit ∧ 0 ≤ exInvoicedLine0.credit ∧
      (exInvoicedLine0.debit = 0 ∨ exInvoicedLine0.credit = 0) :=
  move_lines_single_sided cqId convId [] exLine0 exPia exInvoicedLine0
    (by rw [exLine0_lines]; exact List.mem_cons_self _ _)

/-- C2: a pending-invoice move line produced by
`get_stock_account_move_lines` (a returned line on the pending invoice
account carrying `sale_line`) books exactly the unposted shipped
quantity times the sale line's unit price, converted from the company
currency to the sale currency: a positive amount entirely as debit, a
negative one entirely as credit of its absolute value. -/
theorem pending_line_amount_and_side (cq : Uom → ℚ → Uom → ℚ)
    (curConv : Currency → ℚ → Currency → ℚ) (db : List DbMoveLine)
    (l : SaleLine) (pia : Account) (prod : Product)
    (hp : l.product = some prod)
    (hacc : prod.account_revenue_used.id ≠ pia.id)
    (ml : AccountMoveLine)
    (hml : ml ∈ l.get_stock_account_move_lines cq curConv db pia)
    (ha : ml.account.id = pia.id)
    (hs : ml.sale_line ≠ none) :
    (l.get_unposted_shiped_quantity cq).getD 0 ≠ 0 ∧
    ml.debit - ml.credit =
      curConv l.sale.company.currency
        ((l.get_unposted_shiped_quantity cq).getD 0 * l.unit_price)
        l.sale.currency ∧
    (0 < pendingAmountOf cq curConv l →
      ml.debit = pendingAmountOf cq curConv l ∧ ml.credit = 0) ∧
    (pendingAmountOf cq curConv l < 0 →
      ml.credit = -pendingAmountOf cq curConv l ∧ ml.debit = 0) := by
  rcases mem_move_lines_cases cq curConv db l pia prod hp ml hml with
    ⟨-, rfl⟩ | ⟨a, -, rfl⟩ | ⟨hP, rfl⟩
  · exact absurd rfl hs
  · exact absurd ha hacc
  · obtain ⟨husq, hPeq⟩ := pendingAmountOf_ne_zero cq curConv l hP
    have hcases : 0 < pendingAmountOf cq curConv l ∨
        pendingAmountOf cq curConv l < 0 := hP.lt_or_lt.symm
    refine ⟨husq, ?_, ?_, ?_⟩
    · rcases hcases with hpos | hneg
      · rw [← hPeq]
        simp [mkSignedLine, hpos]
      · rw [← hPeq]
        have hnp : ¬pendingAmountOf cq curConv l > 0 :=
          not_lt.mpr (le_of_lt hneg)
        simp only [mkSignedLine, if_neg hnp, abs_of_neg hneg]
        ring
    · intro hpos
      simp [mkSignedLine, hpos]
    · intro hneg
      have hnp : ¬pendingAmountOf cq curConv l > 0 :=
        not_lt.mpr (le_of_lt hneg)
      simp [mkSignedLine, if_neg hnp, abs_of_neg hneg]

/-- Closed instance of `pending_line_amount_and_side` at the pending
line of the first-shipment sample. -/
theorem pending_line_amount_and_side_witness :
    (exLine0.get_unposted_shiped_quantity cqId).getD 0 ≠ 0 ∧
    exPendingLine0.debit - exPendingLine0.credit =
      convId exLine0.sale.company.currency
        ((exLine0.get_unposted_shiped_quantity cqId).getD 0 *
          exLine0.unit_price)
        exLine0.sale.currency ∧
    (0 < pendingAmountOf cqId convId exLine0 →
      exPendingLine0.debit = pendingAmountOf cqId convId exLine0 ∧
        exPendingLine0.credit = 0) ∧
    (pendingAmountOf cqId convId exLine0 < 0 →
      exPendingLine0.credit = -pendingAmountOf cqId convId exLine0 ∧
        exPendingLine0.debit = 0) :=
  pending_line_amount_and_side cqId convId [] exLine0 exPia exProduct rfl
    (by decide) exPendingLine0
    (by rw [exLine0_lines]; exact List.mem_cons_of_mem _ (List.mem_cons_self _ _))
    rfl (by decide)

/-! The partially-invoiced scenario: 10 shipped, 4 invoiced and posted,
a stored pending line with debit 10 from the first run. -/

/-- The reconciling line built for the stored pending amount 10. -/
def exReconLine : AccountMoveLine := ⟨exPia, none, none, none, 0, 10⟩

/-- The invoiced-revenue line built in the partially-invoiced scenario. -/
def exInvoicedLine16 : AccountMoveLine := ⟨exRevenue, none, some 5, none, 0, 16⟩

/-- The pending-invoice line built in the partially-invoiced scenario. -/
def exPendingLine6 : AccountMoveLine := ⟨exPia, none, some 5, none, 6, 0⟩

/-- Evaluation of `get_unposted_shiped_quantity` on the
partially-invoiced sample: 10 shipped minus 4 invoiced-and-posted. -/
theorem exLine_uspq : exLine.get_unposted_shiped_quantity cqId = some 6 := by
  simp [SaleLine.get_unposted_shiped_quantity, exLine, exMove, exInvLine,
    exInvoice, uspqStep, StockMove.posted_quantity, pqStep, dictValuesSum,
    dictAdd, cqId, List.getLast?, List.getLast, exUom]
  norm_num

/-- Evaluation of `get_stock_account_move_lines` on the
partially-invoiced sample. -/
theorem exLine_lines :
    exLine.get_stock_account_move_lines cqId convId exDb exPia =
      [exReconLine, exInvoicedLine16, exPendingLine6] := by
  simp only [SaleLine.get_stock_account_move_lines, exLine_uspq]
  simp [exLine, exProduct, exMove, exInvLine, exInvoice,
    SaleLine.get_unposted_shiped_quantity, uspqStep, StockMove.posted_quantity,
    pqStep, dictValuesSum, dictAdd, cqId, convId, linesToReconcileOf,
    amountToReconcileOf, pendingAmountOf, mkSignedLine, mkToReconcileLine,
    exReconLine, exInvoicedLine16, exPendingLine6, exRevenue, exPia,
    exSaleInfo, exParty, exCompany, exCur, exUom, exDb,
    List.getLast?, List.getLast]
  norm_num

/-- C1 fails on the code: in the partially-invoiced branch the three
lines returned by `get_stock_account_move_lines` are NOT balanced. With
10 units shipped, 4 invoiced and posted, unit price 1, identity
conversions and a stored pending line of debit 10, the code returns a
reconciling line (credit 10), an invoiced-revenue line (credit 16,
instead of the balancing debit 4) and a pending line (debit 6): total
debits 6, total credits 26. -/
theorem sale_line_move_lines_unbalanced_example :
    ((exLine.get_stock_account_move_lines cqId convId exDb exPia).map
      (fun ml => ml.debit)).sum = 6 ∧
    ((exLine.get_stock_account_move_lines cqId convId exDb exPia).map
      (fun ml => ml.credit)).sum = 26 ∧
    ((exLine.get_stock_account_move_lines cqId convId exDb exPia).map
      (fun ml => ml.debit)).sum ≠
      ((exLine.get_stock_account_move_lines cqId convId exDb exPia).map
        (fun ml => ml.credit)).sum := by
  rw [exLine_lines]
  norm_num [exReconLine, exInvoicedLine16, exPendingLine6]

/-! `Sale.process`. -/

theorem foldl_append_one {α β : Type} (f : α → β) (xs : List α)
    (acc : List β) :
    xs.foldl (fun log x => log ++ [f x]) acc = acc ++ xs.map f := by
  induction xs generalizing acc with
  | nil => simp
  | cons x rest ih => simp [List.foldl_cons, ih]

/-- C7: instrumented with an event log, `Sale.process` first performs
the host module's `process` on the whole sale list and then
`create_stock_account_move` once per sale, in list order. -/
theorem process_calls_super_then_create_each (sales : List Sale) :
    Sale.process (fun ss log => log ++ [ProcessEvent.superCall ss])
      (fun s log => log ++ [ProcessEvent.createCall s]) sales [] =
    ProcessEvent.superCall sales :: sales.map ProcessEvent.createCall := by
  unfold Sale.process
  rw [foldl_append_one]
  simp

/-! `Sale._get_stock_account_move`. -/

theorem foldl_append_map {α β : Type} (f : α → List β) (xs : List α)
    (acc : List β) :
    xs.foldl (fun a x => a ++ f x) acc = acc ++ (xs.map f).flatten := by
  induction xs generalizing acc with
  | nil => simp
  | cons x rest ih => simp [List.foldl_cons, ih]

/-- C6: `_get_stock_account_move` returns `none` when the invoice method
is `manual` or `order`, or when no sale line contributes any move line;
otherwise it returns a move with the sale as origin, today as date, the
period found for the sale's company at that date, the first `revenue`
journal (or `none`), and the concatenated lines. -/
theorem stock_account_move_characterization (cq : Uom → ℚ → Uom → ℚ)
    (curConv : Currency → ℚ → Currency → ℚ) (db : List DbMoveLine)
    (today : ℕ) (periodFind : ℕ → ℕ → ℕ) (journals : List Journal)
    (s : Sale) (pia : Account) (r : Option AccountMove)
    (hr : s.get_stock_account_move cq curConv db today periodFind journals
      pia = r) :
    ((s.invoice_method = "manual" ∨ s.invoice_method = "order") → r = none) ∧
    (allMoveLines cq curConv db s pia = [] → r = none) ∧
    (¬(s.invoice_method = "manual" ∨ s.invoice_method = "order") →
      allMoveLines cq curConv db s pia ≠ [] →
      r = some
        { origin := s.id
          period := periodFind s.company.id today
          journal := Sale.get_accounting_journal journals
          date := today
          lines := allMoveLines cq curConv db s pia }) := by
  subst hr
  simp only [Sale.get_stock_account_move, foldl_append_map,
    List.nil_append, allMoveLines]
  refine ⟨?_, ?_, ?_⟩
  · intro h
    rw [if_pos h]
  · intro h
    by_cases h1 : s.invoice_method = "manual" ∨ s.invoice_method = "order"
    · rw [if_pos h1]
    · rw [if_neg h1, if_pos h]
  · intro hc hne
    rw [if_neg hc, if_neg hne]

/-- The account move built for `exSale`. -/
def exMv : AccountMove := ⟨1, 3, some exJournal, 0, [exInvoicedLine0, exPendingLine0]⟩

/-- Evaluation of `allMoveLines` on `exSale`. -/
theorem exSale_allMoveLines :
    allMoveLines cqId convId [] exSale exPia =
      [exInvoicedLine0, exPendingLine0] := by
  simp [allMoveLines, exSale, exLine0_lines]

/-- Evaluation of `_get_stock_account_move` on `exSale`. -/
theorem exSale_move :
    exSale.get_stock_account_move cqId convId [] 0 pfConst [exJournal]
      exPia = some exMv := by
  simp [Sale.get_stock_account_move, exSale, exLine0_lines,
    Sale.get_accounting_journal, exJournal, pfConst, exMv, exCompany]

/-- Closed instance of `stock_account_move_characterization` at
`exSale`. -/
theorem stock_account_move_characterization_witness :
    exSale.get_stock_account_move cqId convId [] 0 pfConst [exJournal]
        exPia =
      some
        { origin := exSale.id
          period := pfConst exSale.company.id 0
          journal := Sale.get_accounting_journal [exJournal]
          date := 0
          lines := allMoveLines cqId convId [] exSale exPia } :=
  (stock_account_move_characterization cqId convId [] 0 pfConst [exJournal]
    exSale exPia _ rfl).2.2 (by decide)
    (by rw [exSale_allMoveLines]; exact List.cons_ne_nil _ _)

/-! `Sale.create_stock_account_move`. -/

/-- C8: `create_stock_account_move` raises `no_pending_invoice_account`
exactly when the sale's invoice method is `shipment` and the
configuration has no pending invoice account; for any other invoice
method it returns immediately: nothing saved, posted or reconciled and
the stored lines untouched. -/
theorem create_error_and_noop_behaviour (cq : Uom → ℚ → Uom → ℚ)
    (curConv : Currency → ℚ → Currency → ℚ) (db : List DbMoveLine)
    (pa : Option Account) (today : ℕ) (periodFind : ℕ → ℕ → ℕ)
    (journals : List Journal) (db2 : List DbMoveLine) (nid : ℕ) (s : Sale)
    (r : CreateResult)
    (hr : Sale.create_stock_account_move cq curConv db pa today periodFind
      journals db2 nid s = r) :
    (r.raised = some "no_pending_invoice_account" ↔
      s.invoice_method = "shipment" ∧ pa = none) ∧
    (s.invoice_method ≠ "shipment" →
      r = { raised := none, posted_move := none, to_reconcile := []
            reconcile_called := false, db_after := db2 }) := by
  subst hr
  unfold Sale.create_stock_account_move
  by_cases hm : s.invoice_method ≠ "shipment"
  · rw [if_pos hm]
    exact ⟨by simp [hm], fun _ => rfl⟩
  · rw [if_neg hm]
    have hm' : s.invoice_method = "shipment" := not_not.mp hm
    rcases pa with _ | pia
    · simp only
      exact ⟨by simp [hm'], fun h => absurd hm' h⟩
    · simp only
      rcases hmv : s.get_stock_account_move cq curConv db today periodFind
          journals pia with _ | mv
      · simp only
        exact ⟨by simp, fun h => absurd hm' h⟩
      · simp only
        exact ⟨by simp, fun h => absurd hm' h⟩

/-- Closed instance of `create_error_and_noop_behaviour` at the sale
with invoice method `manual`. -/
theorem create_error_and_noop_behaviour_witness :
    Sale.create_stock_account_move cqId convId [] (some exPia) 0 pfConst
        [exJournal] exDb2 200 exSaleManual =
      { raised := none, posted_move := none, to_reconcile := []
        reconcile_called := false, db_after := exDb2 } :=
  (create_error_and_noop_behaviour cqId convId [] (some exPia) 0 pfConst
    [exJournal] exDb2 200 exSaleManual _ rfl).2 (by decide)

/-- C4: `create_stock_account_move` calls `MoveLine.reconcile` only when
the selected lines are non-empty and their credit total equals their
debit total; whenever the two totals differ, no reconciliation happens
and the stored lines are left unchanged. -/
theorem reconcile_only_when_balanced (cq : Uom → ℚ → Uom → ℚ)
    (curConv : Currency → ℚ → Currency → ℚ) (db : List DbMoveLine)
    (pa : Option Account) (today : ℕ) (periodFind : ℕ → ℕ → ℕ)
    (journals : List Journal) (db2 : List DbMoveLine) (nid : ℕ) (s : Sale)
    (r : CreateResult)
    (hr : Sale.create_stock_account_move cq curConv db pa today periodFind
      journals db2 nid s = r) :
    (r.reconcile_called = true →
      r.to_reconcile ≠ [] ∧
        (r.to_reconcile.map (fun dl => dl.credit)).sum =
          (r.to_reconcile.map (fun dl => dl.debit)).sum) ∧
    ((r.to_reconcile.map (fun dl => dl.credit)).sum ≠
        (r.to_reconcile.map (fun dl => dl.debit)).sum →
      r.reconcile_called = false ∧ r.db_after = db2) := by
  subst hr
  unfold Sale.create_stock_account_move
  by_cases hm : s.invoice_method ≠ "shipment"
  · rw [if_pos hm]
    exact ⟨fun h => Bool.noConfusion h, fun _ => ⟨rfl, rfl⟩⟩
  · rw [if_neg hm]
    rcases pa with _ | pia
    · simp only
      exact ⟨fun h => Bool.noConfusion h, fun _ => by simp⟩
    · simp only
      rcases hmv : s.get_stock_account_move cq curConv db today periodFind
          journals pia with _ | mv
      · simp only
        exact ⟨fun h => Bool.noConfusion h, fun _ => by simp⟩
      · simp only
        constructor
        · intro h
          have h' := of_decide_eq_true h
          exact ⟨h'.1, h'.2⟩
        · intro hne
          have hd : ¬(selectReconcileLines db2 s.id pia nid ≠ [] ∧
              ((selectReconcileLines db2 s.id pia nid).map
                (fun dl => dl.credit)).sum =
                ((selectReconcileLines db2 s.id pia nid).map
                  (fun dl => dl.debit)).sum) := fun hcontra => hne hcontra.2
          have hfalse := decide_eq_false hd
          refine ⟨hfalse, ?_⟩
          simp [hfalse]

/-- Evaluation of the reconciliation search on the sample database
`exDb2` (its only line matches every search criterion). -/
theorem exSelect_eval :
    selectReconcileLines exDb2 exSale.id exPia 200 = exDb2 := by decide

/-- Evaluation of the lines selected by `create_stock_account_move` on
the sample database `exDb2`. -/
theorem exCreate_to_reconcile :
    (Sale.create_stock_account_move cqId convId [] (some exPia) 0 pfConst
      [exJournal] exDb2 200 exSale).to_reconcile = exDb2 := by
  unfold Sale.create_stock_account_move
  rw [if_neg (by decide)]
  simp only
  rw [exSale_move]
  simp only
  exact exSelect_eval

/-- Closed instance of `reconcile_only_when_balanced` on `exDb2`, whose
selected line has credit 5 and debit 0: no reconciliation happens and
the stored lines stay as they are. -/
theorem reconcile_only_when_balanced_witness :
    (Sale.create_stock_account_move cqId convId [] (some exPia) 0 pfConst
      [exJournal] exDb2 200 exSale).reconcile_called = false ∧
    (Sale.create_stock_account_move cqId convId [] (some exPia) 0 pfConst
      [exJournal] exDb2 200 exSale).db_after = exDb2 :=
  (reconcile_only_when_balanced cqId convId [] (some exPia) 0 pfConst
    [exJournal] exDb2 200 exSale _ rfl).2
    (by rw [exCreate_to_reconcile]; norm_num [exDb2])

/-- C5: the lines selected for reconciliation by
`create_stock_account_move` are exactly the stored move lines whose
move's origin is this sale, whose account is the pending invoice
account, which are not yet reconciled, and which either belong to a move
other than the newly created one or carry no `sale_line`. -/
theorem reconcile_selection_exact (cq : Uom → ℚ → Uom → ℚ)
    (curConv : Currency → ℚ → Currency → ℚ) (db : List DbMoveLine)
    (today : ℕ) (periodFind : ℕ → ℕ → ℕ) (journals : List Journal)
    (db2 : List DbMoveLine) (nid : ℕ) (s : Sale) (pia : Account)
    (mv : AccountMove)
    (h1 : s.invoice_method = "shipment")
    (h2 : s.get_stock_account_move cq curConv db today periodFind journals
      pia = some mv)
    (dl : DbMoveLine) :
    dl ∈ (Sale.create_stock_account_move cq curConv db (some pia) today
        periodFind journals db2 nid s).to_reconcile ↔
      dl ∈ db2 ∧ dl.move_origin = some s.id ∧ dl.account = pia.id ∧
        dl.reconciliation = none ∧
        (dl.move_id ≠ nid ∨ dl.sale_line = none) := by
  unfold Sale.create_stock_account_move
  rw [if_neg (not_ne_iff.mpr h1)]
  simp only
  rw [h2]
  simp only
  simp [selectReconcileLines, List.mem_filter, decide_eq_true_eq]

/-- Closed instance of `reconcile_selection_exact`: the stored line of
`exDb2` is selected. -/
theorem reconcile_selection_exact_witness :
    (⟨100, some 1, 7, some 5, none, 0, 5⟩ : DbMoveLine) ∈
      (Sale.create_stock_account_move cqId convId [] (some exPia) 0 pfConst
        [exJournal] exDb2 200 exSale).to_reconcile :=
  (reconcile_selection_exact cqId convId [] 0 pfConst [exJournal] exDb2 200
    exSale exPia exMv rfl exSale_move _).mpr (by decide)

end SaleStockAccountMove
